import Mathlib

set_option maxRecDepth 100000

/-!
Verification development for the edge bot-filter repository ("ucar-upgrade").

The TypeScript sources under `src/` are shallowly embedded below:
JavaScript strings are modelled as lists of character codes (`Bytes`),
byte buffers likewise; `Date.now()` values are explicit `Nat`/`Int`
parameters; the in-process fallback map of `utils/rateLimiter.ts` is an
explicit association list threaded through every operation; remote
(Upstash Redis REST) interactions are modelled by the JSON results the
code inspects (`none` = missing configuration, failed fetch, non-2xx or
undecodable body — exactly the cases `kvFetch` collapses to `null`).
The cryptographic primitive `HMAC-SHA-256` used by `utils/nonce.ts` via
WebCrypto/node:crypto is implemented concretely so that tokens can be
evaluated inside proofs.
-/

/-- JavaScript strings and byte buffers: lists of (code-unit / byte) values. -/
abbrev Bytes := List Nat

/-- Character codes of an ASCII Lean string literal. -/
def lit (s : String) : Bytes := s.data.map Char.toNat

/-! ## SHA-256 (FIPS 180-4) and HMAC-SHA-256

`utils/nonce.ts` computes its MAC with WebCrypto `subtle.sign('HMAC', ...)`
(SHA-256) or the node `createHmac('sha256', ...)` fallback; both are the
standard primitive implemented executably here (bytes as `Nat < 256`,
32-bit words as `Nat` reduced mod `2^32`). -/

def m32 : Nat := 4294967296

def add32 (a b : Nat) : Nat := (a + b) % m32

def rotr32 (x n : Nat) : Nat :=
  ((x >>> n) ||| (x <<< (32 - n))) % m32

def shr32 (x n : Nat) : Nat := x >>> n

def xor3 (a b c : Nat) : Nat := Nat.xor (Nat.xor a b) c

def bsig0 (x : Nat) : Nat := xor3 (rotr32 x 2) (rotr32 x 13) (rotr32 x 22)

def bsig1 (x : Nat) : Nat := xor3 (rotr32 x 6) (rotr32 x 11) (rotr32 x 25)

def ssig0 (x : Nat) : Nat := xor3 (rotr32 x 7) (rotr32 x 18) (shr32 x 3)

def ssig1 (x : Nat) : Nat := xor3 (rotr32 x 17) (rotr32 x 19) (shr32 x 10)

def chFn (x y z : Nat) : Nat := Nat.xor (Nat.land x y) (Nat.land (m32 - 1 - x % m32) z)

def majFn (x y z : Nat) : Nat := xor3 (Nat.land x y) (Nat.land x z) (Nat.land y z)

def shaK : List Nat :=
  [1116352408, 1899447441, 3049323471, 3921009573, 961987163,
   1508970993, 2453635748, 2870763221, 3624381080, 310598401,
   607225278, 1426881987, 1925078388, 2162078206, 2614888103,
   3248222580, 3835390401, 4022224774, 264347078, 604807628,
   770255983, 1249150122, 1555081692, 1996064986, 2554220882,
   2821834349, 2952996808, 3210313671, 3336571891, 3584528711,
   113926993, 338241895, 666307205, 773529912, 1294757372,
   1396182291, 1695183700, 1986661051, 2177026350, 2456956037,
   2730485921, 2820302411, 3259730800, 3345764771, 3516065817,
   3600352804, 4094571909, 275423344, 430227734, 506948616,
   659060556, 883997877, 958139571, 1322822218, 1537002063,
   1747873779, 1955562222, 2024104815, 2227730452, 2361852424,
   2428436474, 2756734187, 3204031479, 3329325298]

def shaH0 : List Nat :=
  [1779033703, 3144134277, 1013904242, 2773480762, 1359893119,
   2600822924, 528734635, 1541459225]

/-- Big-endian bytes of a value, fixed width. -/
def beBytes (width v : Nat) : Bytes :=
  (List.range width).reverse.map fun i => (v >>> (8 * i)) % 256

/-- SHA-256 padding: 0x80, zeros, 64-bit big-endian bit length. -/
def shaPad (msg : Bytes) : Bytes :=
  let l := msg.length
  let zeros := (64 + 55 - (l % 64)) % 64
  msg ++ [0x80] ++ List.replicate zeros 0 ++ beBytes 8 (8 * l)

/-- Split into 64-byte blocks (input length is a multiple of 64 after padding). -/
def blocks64 (l : Bytes) : List Bytes :=
  let step := fun (acc : List Bytes × Bytes) (b : Nat) =>
    let cur := acc.2 ++ [b]
    if cur.length = 64 then (acc.1 ++ [cur], []) else (acc.1, cur)
  (l.foldl step ([], [])).1

/-- Pack 4 consecutive big-endian bytes into 32-bit words. -/
def words32 : Bytes → List Nat
  | a :: b :: c :: d :: rest => (((a * 256 + b) * 256 + c) * 256 + d) :: words32 rest
  | _ => []

/-- Extend the 16-word block to the 64-word message schedule. -/
def shaSchedule (w : List Nat) : Nat → List Nat
  | 0 => w
  | n + 1 =>
    let w := shaSchedule w n
    let i := w.length
    w ++ [add32 (add32 (ssig1 (w.getD (i - 2) 0)) (w.getD (i - 7) 0))
            (add32 (ssig0 (w.getD (i - 15) 0)) (w.getD (i - 16) 0))]

/-- One round of the SHA-256 compression function. -/
def shaRound (kw : Nat × Nat) (st : List Nat) : List Nat :=
  match st with
  | [a, b, c, d, e, f, g, h] =>
    let t1 := add32 h (add32 (bsig1 e) (add32 (chFn e f g) (add32 kw.1 kw.2)))
    let t2 := add32 (bsig0 a) (majFn a b c)
    [add32 t1 t2, a, b, c, add32 d t1, e, f, g]
  | st => st

/-- Compress one 64-byte block into the running hash state. -/
def shaCompress (h : List Nat) (blk : Bytes) : List Nat :=
  let w := shaSchedule (words32 blk) 48
  let st := (shaK.zip w).foldl (fun st kw => shaRound kw st) h
  (h.zip st).map fun p => add32 p.1 p.2

/-- SHA-256 digest (32 bytes) of a byte list. -/
def sha256 (msg : Bytes) : Bytes :=
  let h := (blocks64 (shaPad msg)).foldl shaCompress shaH0
  h.flatMap (beBytes 4)

/-- HMAC-SHA-256 with block size 64 (`createHmac('sha256', key)`). -/
def hmacSHA256 (key msg : Bytes) : Bytes :=
  let k0 := if 64 < key.length then sha256 key else key
  let k := k0 ++ List.replicate (64 - k0.length) 0
  let ipad := k.map (Nat.xor 0x36)
  let opad := k.map (Nat.xor 0x5c)
  sha256 (opad ++ sha256 (ipad ++ msg))

/-! ## base64url

`utils/nonce.ts` encodes with `btoa`/`Buffer` then maps `+/` to `-_` and
strips `=`; `fromB64url` maps back, re-pads with `=` and decodes with
`atob` (the WHATWG forgiving-base64 algorithm, which strips ASCII
whitespace, allows at most two trailing `=`, rejects other characters,
and discards excess bits of the final group).  The embedding models the
Edge (`btoa`/`atob`) code path; a decode failure is `none`, which the
`try`/`catch` of `verifySignedPayload` turns into `null`. -/

def b64Char (v : Nat) : Nat :=
  if v < 26 then 65 + v
  else if v < 52 then 97 + (v - 26)
  else if v < 62 then 48 + (v - 52)
  else if v = 62 then 43 else 47

/-- Sextet value of a standard-alphabet base64 character, `none` if invalid. -/
def b64Val (c : Nat) : Option Nat :=
  if 65 ≤ c ∧ c ≤ 90 then some (c - 65)
  else if 97 ≤ c ∧ c ≤ 122 then some (c - 97 + 26)
  else if 48 ≤ c ∧ c ≤ 57 then some (c - 48 + 52)
  else if c = 43 then some 62
  else if c = 47 then some 63
  else none

/-- base64 sextet stream of a byte list (no padding characters). -/
def b64Sextets : Bytes → List Nat
  | a :: b :: c :: rest =>
    (a >>> 2) :: ((a % 4) * 16 + (b >>> 4)) :: ((b % 16) * 4 + (c >>> 6)) :: (c % 64) :: b64Sextets rest
  | [a, b] => [a >>> 2, (a % 4) * 16 + (b >>> 4), (b % 16) * 4]
  | [a] => [a >>> 2, (a % 4) * 16]
  | [] => []

/-- `b64url` of `utils/nonce.ts`: unpadded base64url character codes. -/
def b64url (bytes : Bytes) : Bytes :=
  (b64Sextets bytes).map fun v =>
    let c := b64Char v
    if c = 43 then 45 else if c = 47 then 95 else c

/-- Reassemble bytes from sextets, four at a time; a leftover group of 2 or 3
sextets contributes 1 or 2 bytes with excess bits discarded (forgiving-base64);
a leftover single sextet is rejected upstream. -/
def sextetsToBytes : List Nat → Bytes
  | a :: b :: c :: d :: rest =>
    (a * 4 + (b >>> 4)) :: ((b % 16) * 16 + (c >>> 2)) :: ((c % 4) * 64 + d) :: sextetsToBytes rest
  | [a, b, c] => [a * 4 + (b >>> 4), (b % 16) * 16 + (c >>> 2)]
  | [a, b] => [a * 4 + (b >>> 4)]
  | _ => []

def isB64Ws (c : Nat) : Bool := c = 9 ∨ c = 10 ∨ c = 12 ∨ c = 13 ∨ c = 32

def mapMOption {α β : Type} (f : α → Option β) : List α → Option (List β)
  | [] => some []
  | a :: rest => match f a, mapMOption f rest with
    | some b, some bs => some (b :: bs)
    | _, _ => none

/-- WHATWG forgiving-base64 decode (`atob`) on character codes. -/
def atobForgiving (s : Bytes) : Option Bytes :=
  let s := s.filter fun c => !isB64Ws c
  let s := if s.length % 4 = 0 then
      let r := s.reverse
      if r.take 2 = [61, 61] then (r.drop 2).reverse
      else if r.take 1 = [61] then (r.drop 1).reverse
      else s
    else s
  if s.length % 4 = 1 then none
  else (mapMOption b64Val s).map sextetsToBytes

/-- `fromB64url` of `utils/nonce.ts`: map `-_` back to `+/`, pad with `=`
to a multiple of 4, then `atob`. -/
def fromB64url (s : Bytes) : Option Bytes :=
  let s := s.map fun c => if c = 45 then 43 else if c = 95 then 47 else c
  let s := s ++ List.replicate ((4 - s.length % 4) % 4) 61
  atobForgiving s

example : sha256 (lit "abc") =
    [186, 120, 22, 191, 143, 1, 207, 234, 65, 65, 64, 222,
     93, 174, 34, 35, 176, 3, 97, 163, 150, 23, 122, 156,
     180, 16, 255, 97, 242, 0, 21, 173] := by
  decide

example : hmacSHA256 (lit "Jefe") (lit "what do ya want for nothing?") =
    [91, 220, 193, 70, 191, 96, 117, 78, 106, 4, 36, 38,
     8, 149, 117, 199, 90, 0, 63, 8, 157, 39, 57, 131,
     157, 236, 88, 185, 100, 236, 56, 67] := by
  decide

example : fromB64url (b64url (lit "any carnal pleasure.")) = some (lit "any carnal pleasure.") := by
  decide

example : b64url [0x30] = lit "MA" := by decide

example : fromB64url (lit "MC") = some [0x30] := by decide

/-! ## JSON values

The payloads signed by `utils/nonce.ts` are `JSON.stringify` outputs and
`verifySignedPayload` re-parses them to read the numeric `exp` field.
`Json` models JavaScript JSON values on the fragment the program emits:
finite-order objects, arrays, escape-free ASCII strings, integral
numbers, booleans and null.  `parseJson` models `JSON.parse` on that
fragment (anything outside it yields `none`, which the source's
`try`/`catch` treats as an absent/unchecked field), and duplicate object
keys follow JavaScript's last-occurrence-wins rule. -/

inductive Json where
  | num (n : Int)
  | str (s : Bytes)
  | bool (b : Bool)
  | null
  | arr (xs : List Json)
  | obj (fields : List (Bytes × Json))

/-- Last-occurrence-wins field lookup, as `JSON.parse` produces for
duplicate keys and property access then observes. -/
def jLookupLast (fields : List (Bytes × Json)) (k : Bytes) : Option Json :=
  (fields.reverse.find? fun p => p.1 = k).map Prod.snd

def skipWs (s : Bytes) : Bytes :=
  s.dropWhile fun c => c = 32 ∨ c = 9 ∨ c = 10 ∨ c = 13

def isDigit (c : Nat) : Bool := 48 ≤ c ∧ c ≤ 57

def digitsToNat (ds : Bytes) : Nat :=
  ds.foldl (fun a d => a * 10 + (d - 48)) 0

mutual

/-- Recursive-descent `JSON.parse` model (fuel-indexed); returns the value
and the unconsumed remainder. -/
def parseVal (fuel : Nat) (s : Bytes) : Option (Json × Bytes) :=
  match fuel with
  | 0 => none
  | fuel + 1 =>
    match skipWs s with
    | 34 :: rest =>
      let str := rest.takeWhile fun c => ¬ (c = 34 ∨ c = 92)
      match rest.drop str.length with
      | 34 :: rest2 => some (.str str, rest2)
      | _ => none
    | 116 :: 114 :: 117 :: 101 :: rest => some (.bool true, rest)
    | 102 :: 97 :: 108 :: 115 :: 101 :: rest => some (.bool false, rest)
    | 110 :: 117 :: 108 :: 108 :: rest => some (.null, rest)
    | 123 :: rest =>
      (match skipWs rest with
       | 125 :: rest2 => some (.obj [], rest2)
       | _ => (parseFields fuel rest).map fun p => (.obj p.1, p.2))
    | 91 :: rest =>
      (match skipWs rest with
       | 93 :: rest2 => some (.arr [], rest2)
       | _ => (parseElems fuel rest).map fun p => (.arr p.1, p.2))
    | 45 :: rest =>
      let ds := rest.takeWhile isDigit
      if ds = [] then none
      else some (.num (-(digitsToNat ds : Int)), rest.drop ds.length)
    | c :: rest =>
      if isDigit c then
        let ds := rest.takeWhile isDigit
        some (.num (digitsToNat (c :: ds) : Int), rest.drop ds.length)
      else none
    | [] => none

def parseFields (fuel : Nat) (s : Bytes) : Option (List (Bytes × Json) × Bytes) :=
  match fuel with
  | 0 => none
  | fuel + 1 =>
    match skipWs s with
    | 34 :: rest =>
      let key := rest.takeWhile fun c => ¬ (c = 34 ∨ c = 92)
      match rest.drop key.length with
      | 34 :: rest2 =>
        (match skipWs rest2 with
         | 58 :: rest3 =>
           match parseVal fuel rest3 with
           | some (v, rest4) =>
             (match skipWs rest4 with
              | 44 :: rest5 => (parseFields fuel rest5).map fun p => ((key, v) :: p.1, p.2)
              | 125 :: rest5 => some ([(key, v)], rest5)
              | _ => none)
           | none => none
         | _ => none)
      | _ => none
    | _ => none

def parseElems (fuel : Nat) (s : Bytes) : Option (List Json × Bytes) :=
  match fuel with
  | 0 => none
  | fuel + 1 =>
    match parseVal fuel s with
    | some (v, rest) =>
      (match skipWs rest with
       | 44 :: rest2 => (parseElems fuel rest2).map fun p => (v :: p.1, p.2)
       | 93 :: rest2 => some ([v], rest2)
       | _ => none)
    | none => none

end

/-- `JSON.parse` on a whole string: the value must consume all input. -/
def parseJson (s : Bytes) : Option Json :=
  match parseVal (s.length + 1) s with
  | some (j, rest) => if skipWs rest = [] then some j else none
  | none => none

mutual

/-- `JSON.stringify` on the modelled fragment (strings are emitted
verbatim; the program's payload strings contain no characters needing
escapes). -/
def jsonStr : Json → Bytes
  | .num n => lit (toString n)
  | .str s => 34 :: s ++ [34]
  | .bool true => lit "true"
  | .bool false => lit "false"
  | .null => lit "null"
  | .arr xs => 91 :: (jsonStrList xs).flatten.drop 1 ++ [93]
  | .obj fs => 123 :: (jsonStrFields fs).flatten.drop 1 ++ [125]

def jsonStrList : List Json → List Bytes
  | [] => []
  | x :: xs => (44 :: jsonStr x) :: jsonStrList xs

def jsonStrFields : List (Bytes × Json) → List Bytes
  | [] => []
  | (k, v) :: fs => (44 :: 34 :: k ++ [34] ++ [58] ++ jsonStr v) :: jsonStrFields fs

end

/-- JavaScript object-literal construction: a duplicate key keeps the
position of its first occurrence but takes the value of its last. -/
def jsObjLit (fields : List (Bytes × Json)) : List (Bytes × Json) :=
  fields.foldl (fun acc kv =>
    if acc.any fun p => p.1 = kv.1 then
      acc.map fun p => if p.1 = kv.1 then (p.1, kv.2) else p
    else acc ++ [kv]) []

example : (parseJson (lit "\x7b \"exp\" : 123, \"a\":\"b\"\x7d")).map jsonStr =
    some (lit "\x7b\"exp\":123,\"a\":\"b\"\x7d") := by decide

example : jsonStr (.obj [(lit "exp", .str (lit "control")), (lit "n", .num 5)]) =
    lit "\x7b\"exp\":\"control\",\"n\":5\x7d" := by decide

/-! ## Token Service (`utils/nonce.ts`)

`signPayload`/`verifySignedPayload` with the secret made explicit: the
source fetches it with `getSignKey()` on *every* call, so each embedded
call takes the key (or, in the unconfigured case, the fresh
`Math.random()` draw of that call) as an argument. -/

/-- `getSignKey`: the configured `SIGN_KEY`, else `'ephemeral-' +
Math.random().toString(36).slice(2)` — note the random draw happens on
each call, there is no per-process caching in the source. -/
def getSignKey (cfg : Option Bytes) (freshRandom : Bytes) : Bytes :=
  match cfg with
  | some k => k
  | none => lit "ephemeral-" ++ freshRandom

/-- `signPayload`: `b64url(payload) + '.' + b64url(HMAC(key, payload))`. -/
def signPayload (key payload : Bytes) : Bytes :=
  b64url payload ++ [46] ++ b64url (hmacSHA256 key payload)

/-- `String.prototype.split('.')`: all fragments, empties preserved. -/
def splitDot (s : Bytes) : List Bytes :=
  match s with
  | [] => [[]]
  | c :: rest =>
    let parts := splitDot rest
    if c = 46 then [] :: parts
    else match parts with
      | p :: ps => (c :: p) :: ps
      | [] => [[c]]

/-- `const [p, s] = token.split('.'); if (!p || !s) return null` — the
first two fragments, provided both are non-empty. -/
def tokenSegs (t : Bytes) : Option (Bytes × Bytes) :=
  match splitDot t with
  | p :: s :: _ => if p = [] ∨ s = [] then none else some (p, s)
  | _ => none

/-- The defence-in-depth expiry check of `verifySignedPayload`: only a
payload that parses as JSON with a numeric `exp` less than `Date.now()`
is rejected (`catch {}` swallows everything else). -/
def expiredByJson (payload : Bytes) (now : Int) : Bool :=
  match parseJson payload with
  | some (.obj fields) =>
    match jLookupLast fields (lit "exp") with
    | some (.num e) => e < now
    | _ => false
  | _ => false

/-- `verifySignedPayload`: split, decode both segments, recompute the MAC,
compare (the constant-time loop is equality), then the expiry re-check. -/
def verifySignedPayload (key tok : Bytes) (now : Int) : Option Bytes :=
  match tokenSegs tok with
  | none => none
  | some (p, s) =>
    match fromB64url p, fromB64url s with
    | some payloadBytes, some sigBytes =>
      let mac := hmacSHA256 key payloadBytes
      if mac.length ≠ sigBytes.length then none
      else if mac ≠ sigBytes then none
      else if expiredByJson payloadBytes now then none
      else some payloadBytes
    | _, _ => none

/-- Flip bit `b` of the character at index `i` of a token string. -/
def flipBit (t : Bytes) (i b : Nat) : Bytes :=
  t.mapIdx fun j c => if j = i then Nat.xor c (2 ^ b) else c

example : verifySignedPayload (lit "k") (signPayload (lit "k") (lit "\x7b\"exp\":4102444800000\x7d")) 1700000000000
    = some (lit "\x7b\"exp\":4102444800000\x7d") := by decide

example : verifySignedPayload (lit "k") (signPayload (lit "k") (lit "\x7b\"exp\":99\x7d")) 1700000000000
    = none := by decide

/-! ## Counter Store (`utils/rateLimiter.ts`)

The in-process fallback `MEM` map is an explicit association list with
JavaScript `Map` update semantics (replace in place, else append).
`Date.now()` is a `now : Nat` argument (epoch milliseconds).  `memGet`'s
eager deletion of an expired entry is modelled by simply treating the
entry as absent: every reader goes through `memGet`, and `kvIncr`,
`memSet` and the `ts:` bookkeeping overwrite unconditionally, so deletion
is unobservable.  Remote (Upstash REST) calls are modelled by the JSON
result the code inspects: `none` stands for every case `kvFetch` collapses
to `null` (missing configuration handled separately, non-2xx status,
undecodable body); the REST commands issued are recorded so that
TTL-refresh behaviour of the remote path is visible. -/

inductive MemVal where
  | num (n : Nat)
  | str (s : Bytes)
deriving DecidableEq

structure MemEntry where
  v : MemVal
  exp : Nat
  times : List Nat
deriving DecidableEq

abbrev Mem := List (Bytes × MemEntry)

def memAssoc (m : Mem) (k : Bytes) : Option MemEntry :=
  (m.find? fun p => p.1 = k).map Prod.snd

/-- JavaScript `Map.prototype.set`: overwrite in place, else append. -/
def memUpdate (m : Mem) (k : Bytes) (e : MemEntry) : Mem :=
  match m with
  | [] => [(k, e)]
  | (k1, e1) :: rest => if k1 = k then (k, e) :: rest else (k1, e1) :: memUpdate rest k e

/-- `memGet`: an entry whose (truthy) expiry is in the past is absent. -/
def memGet (m : Mem) (k : Bytes) (now : Nat) : Option MemEntry :=
  match memAssoc m k with
  | none => none
  | some e => if e.exp ≠ 0 ∧ e.exp < now then none else some e

/-- `memSet`: store a value expiring `ttlSec` seconds from now. -/
def memSet (m : Mem) (k : Bytes) (v : MemVal) (ttlSec now : Nat) : Mem :=
  memUpdate m k ⟨v, now + ttlSec * 1000, []⟩

/-- The in-memory path of `kvIncr`: note the stored `exp` is recomputed
from `Date.now()` on *every* increment. -/
def kvIncrNoKV (m : Mem) (k : Bytes) (ttlSec now : Nat) : Nat × Mem :=
  let e := memGet m k now
  let n := match e with
    | some ⟨.num v, _, _⟩ => v + 1
    | _ => 1
  (n, memUpdate m k ⟨.num n, now + ttlSec * 1000, (e.map MemEntry.times).getD []⟩)

/-- Remote commands issued over the Upstash REST protocol. -/
inductive RemoteCmd where
  | incr (k : Bytes)
  | expire (k : Bytes) (seconds : Nat)
  | rget (k : Bytes)
  | setex (k v : Bytes) (seconds : Nat)
deriving DecidableEq

/-- `kvIncr` with the remote store configured: `incrResp` is the numeric
`result` of `POST /incr`, or `none` when the call failed, returned a
non-2xx status or a non-numeric body.  `/expire` is issued only when the
returned count is 1; an invalid response falls through to the memory
path. -/
def kvIncrCfg (configured : Bool) (incrResp : Option Nat) (m : Mem) (k : Bytes)
    (ttlSec now : Nat) : Nat × Mem × List RemoteCmd :=
  if configured then
    match incrResp with
    | some n => (n, m, .incr k :: if n = 1 then [.expire k ttlSec] else [])
    | none =>
      let r := kvIncrNoKV m k ttlSec now
      (r.1, r.2, [.incr k])
  else
    let r := kvIncrNoKV m k ttlSec now
    (r.1, r.2, [])

/-- Fallback branch of `getAndSetBinding`: `(e?.v as string) || null`
turns a falsy stored value (empty string, zero) into `null`, and
`prev !== value` is JavaScript strict inequality. -/
def getAndSetBindingNoKV (m : Mem) (k value : Bytes) (ttlSec now : Nat) :
    (Bool × Option MemVal) × Mem :=
  let e := memGet m k now
  let prev : Option MemVal := match e with
    | some en =>
      match en.v with
      | .str s => if s = [] then none else some (.str s)
      | .num n => if n = 0 then none else some (.num n)
    | none => none
  ((decide (prev ≠ some (.str value)), prev), memSet m k (.str value) ttlSec now)

/-- `getAndSetBinding` with the remote store configured: the result is
derived from the `/get` response alone (`prev?.result ?? null`); the
in-process map is *not* consulted and not written. -/
def getAndSetBindingCfg (configured : Bool) (getResp : Option (Option Bytes))
    (m : Mem) (k value : Bytes) (ttlSec now : Nat) :
    (Bool × Option MemVal) × Mem × List RemoteCmd :=
  if configured then
    let prev : Option Bytes := match getResp with
      | some (some v) => some v
      | _ => none
    ((decide (prev ≠ some value), prev.map MemVal.str), m, [.rget k, .setex k value ttlSec])
  else
    let r := getAndSetBindingNoKV m k value ttlSec now
    (r.1, r.2, [])

/-- `kvSetEx`: a truthy remote response skips the memory write; a null
response (not configured, failed, non-2xx) stores in memory.  Always
returns `true`. -/
def kvSetExM (remoteOk : Bool) (m : Mem) (k value : Bytes) (ttlSec now : Nat) : Bool × Mem :=
  if remoteOk then (true, m) else (true, memSet m k (.str value) ttlSec now)

def hpKey (ip : Bytes) : Bytes := lit "hp:" ++ ip

/-- `getHoneypotHits` fallback branch. -/
def getHoneypotHitsNoKV (m : Mem) (ip : Bytes) (now : Nat) : Nat :=
  match memGet m (hpKey ip) now with
  | some ⟨.num n, _, _⟩ => n
  | _ => 0

/-- `getHoneypotHits` with the remote store configured: the value comes
from the `/get` response alone (`Number(r?.result ?? 0)`), never from the
in-process map. -/
def getHoneypotHitsCfg (configured : Bool) (getResp : Option (Option Nat))
    (m : Mem) (ip : Bytes) (now : Nat) : Nat :=
  if configured then
    match getResp with
    | some (some n) => n
    | _ => 0
  else getHoneypotHitsNoKV m ip now

/-- `incHoneypot` on the fallback store (default TTL six hours). -/
def incHoneypotNoKV (m : Mem) (ip : Bytes) (ttlSec now : Nat) : Mem :=
  let r := kvIncrNoKV m (hpKey ip) ttlSec now
  if r.1 = 0 then memSet r.2 (hpKey ip) (.num 1) ttlSec now else r.2

structure Penalty where
  rateHigh : Bool
  count : Nat
  uniform : Bool
  fast : Bool
deriving DecidableEq

def rateIpKey (ip : Bytes) : Bytes := lit "rate:ip:" ++ ip

def rateFpKey (fp : Bytes) : Bytes := lit "rate:fp:" ++ fp

def rateAsnKey (asn : Bytes) : Bytes := lit "rate:asn:" ++ asn

def tsKey (ip fp : Bytes) : Bytes := lit "ts:" ++ (ip ++ (lit ":" ++ fp))

/-- Consecutive inter-arrival intervals (`e.times[i] - e.times[i-1]`,
JavaScript number subtraction). -/
def ivDiffs : List Int → List Int
  | a :: b :: rest => (b - a) :: ivDiffs (b :: rest)
  | _ => []

/-- `cv < 0.10` without square roots: for `cv = mean ? std/mean : 0`,
a zero or negative mean gives `cv ≤ 0 < 0.10`, and for positive mean
`std/mean < 1/10 ↔ 100·variance < mean²`. -/
def cvBelowTenth (mean variance : ℚ) : Bool :=
  if mean ≤ 0 then true else decide (100 * variance < mean ^ 2)

/-- The `uniform`/`fast` flags computed from the updated `ts:` history. -/
def behaviorFlags (times : List Nat) : Bool × Bool :=
  if 3 ≤ times.length then
    let iv := ivDiffs (times.map Int.ofNat)
    let ivq : List ℚ := iv.map fun n => (n : ℚ)
    let mean : ℚ := ivq.sum / ivq.length
    let variance : ℚ := (ivq.map fun v => (v - mean) ^ 2).sum / ivq.length
    (cvBelowTenth mean variance && decide (4 ≤ iv.length), decide (mean < 600))
  else (false, false)

/-- `bumpCountersAndGetPenalty` on the fallback store (`Promise.all` of
three independent-key increments, modelled left to right, followed by the
in-memory `ts:` time-series bookkeeping). -/
def bumpCountersNoKV (m : Mem) (ip fp asn : Bytes)
    (windowSec perIp perFp perAsn now : Nat) : Penalty × Mem :=
  let r1 := kvIncrNoKV m (rateIpKey ip) windowSec now
  let r2 := kvIncrNoKV r1.2 (rateFpKey fp) windowSec now
  let r3 := kvIncrNoKV r2.2 (rateAsnKey asn) windowSec now
  let count := max r1.1 (max r2.1 r3.1)
  let rateHigh := decide (perIp < r1.1) || decide (perFp < r2.1) || decide (perAsn < r3.1)
  let k := tsKey ip fp
  let e := match memGet r3.2 k now with
    | some e => e
    | none => ⟨.num 0, now + windowSec * 1000, []⟩
  let times := (e.times ++ [now]).drop (e.times.length + 1 - 10)
  let m4 := memUpdate r3.2 k ⟨e.v, e.exp, times⟩
  let bf := behaviorFlags times
  (⟨rateHigh, count, bf.1, bf.2⟩, m4)

/-- `n` successive calls of `bumpCountersAndGetPenalty` (fallback store)
for one address, the k-th call carrying fingerprint `fps k` and ASN
`asns k`, all inside one window (same `now`). -/
def bumpIter (ip : Bytes) (fps asns : Nat → Bytes)
    (windowSec perIp perFp perAsn now : Nat) : Nat → Penalty × Mem
  | 0 => (⟨false, 0, false, false⟩, [])
  | n + 1 =>
    bumpCountersNoKV (bumpIter ip fps asns windowSec perIp perFp perAsn now n).2
      ip (fps (n + 1)) (asns (n + 1)) windowSec perIp perFp perAsn now

/-! ## Honeypot & ASN watchlist

`watchASN` and `isASNWatched` are imported from `utils/rateLimiter` by
`app/api/honeytrap/route.ts`, `app/api/decoy/feed/route.ts` and
`utils/botCheck.ts`, but their definitions are not present in the
repository's `src/utils/rateLimiter.ts`. -/

abbrev Watchlist := List (Bytes × Nat)

/-- Modelled from the spec: `watchASN(asn, ttl)` — the implementation is
missing from `src/utils/rateLimiter.ts` (only its callers and import
sites exist).  Per §4.5 it maintains a temporary watchlist entry for the
autonomous system for a bounded window, here an in-process map from the
ASN to the absolute end of its window. -/
def watchASN (wl : Watchlist) (asn : Bytes) (ttlSec now : Nat) : Watchlist :=
  match wl with
  | [] => [(asn, now + ttlSec * 1000)]
  | (a, e) :: rest => if a = asn then (asn, now + ttlSec * 1000) :: rest
    else (a, e) :: watchASN rest asn ttlSec now

/-- Modelled from the spec: `isASNWatched(asn)` — the implementation is
missing from `src/utils/rateLimiter.ts`.  Per §4.5, true exactly while
the ASN's bounded watch window is still open (the caller in
`utils/botCheck.ts` passes the numeric ASN; the model applies the same
`String(asn)` coercion `watchASN`'s callers use). -/
def isASNWatched (wl : Watchlist) (asn : Bytes) (now : Nat) : Bool :=
  match (wl.find? fun p => p.1 = asn).map Prod.snd with
  | some e => decide (now < e)
  | none => false

/-- `GET /api/honeytrap`: increment the per-address honeypot counter and,
when an ASN is resolvable, watch that ASN for two hours (fallback
store). -/
def honeytrapGET (m : Mem) (wl : Watchlist) (ip : Bytes) (asn : Option Int) (now : Nat) :
    Mem × Watchlist :=
  let m1 := incHoneypotNoKV m ip (6 * 60 * 60) now
  match asn with
  | some n => (m1, watchASN wl (lit (toString n)) (2 * 60 * 60) now)
  | none => (m1, wl)

/-! ## Risk Scorer (`isBot` of `utils/botCheck.ts`)

The weighted combination of lines 596–616, over the signal vector the
surrounding code computes.  Network lookups (IPQS, PTR), KV-backed
counters and header parsing feed the function only through this vector,
so the score is a pure function of it plus the weight table
`W = {...DEFAULT_WEIGHTS, ...override}`. -/

structure Weights where
  uaBlock : ℚ
  asnBlack : ℚ
  ipBlack : ℚ
  ipUntrusted : ℚ
  ipqsFraud : ℚ
  ipqsProxy : ℚ
  ipqsVpn : ℚ
  ipqsTor : ℚ
  ptrBot : ℚ
  rateHigh : ℚ
  behaviorUniform : ℚ
  behaviorFast : ℚ
  tlsPresent : ℚ
  jsNonceValid : ℚ
  fpOk : ℚ
  activityOk : ℚ
  hpHit : ℚ

/-- `DEFAULT_WEIGHTS` of `utils/botCheck.ts`. -/
def defaultWeights : Weights :=
  { uaBlock := 0.35, asnBlack := 0.25, ipBlack := 0.20, ipUntrusted := 0.15,
    ipqsFraud := 0.28, ipqsProxy := 0.18, ipqsVpn := 0.18, ipqsTor := 0.30,
    ptrBot := 0.30, rateHigh := 0.18, behaviorUniform := 0.12, behaviorFast := 0.10,
    tlsPresent := -0.04, jsNonceValid := -0.10, fpOk := -0.10, activityOk := -0.10,
    hpHit := 0.50 }

/-- `clamp01` of `utils/botCheck.ts`. -/
def clamp01 (n : ℚ) : ℚ := if n < 0 then 0 else if n > 1 then 1 else n

/-- Signal vector consumed by the weighted combination in `isBot`. -/
structure BotSignals where
  uaBlocked : Bool
  asnBlk : Bool
  ipBlk : Bool
  ptrBot : Bool
  ipqsFraud : Option ℚ
  ipqsProxy : Bool
  ipqsVpn : Bool
  ipqsActiveVpn : Bool
  ipqsTor : Bool
  ipqsActiveTor : Bool
  rateHigh : Bool
  uniform : Bool
  fast : Bool
  ipUntrusted : Bool
  asnWatched : Bool
  tlsPresent : Bool
  jsValid : Bool
  fpValid : Bool
  humanActivity : Bool
  hpCount : Nat

/-- The accumulated probability of `isBot` before the final clamp
(`let p = 0.5; if ... p += ...`, lines 597–615, in source order — note
the hard-coded `0.12` for a watched ASN). -/
def unclampedScore (W : Weights) (s : BotSignals) : ℚ :=
  0.5
  + (if s.uaBlocked then W.uaBlock else 0)
  + (if s.asnBlk then W.asnBlack else 0)
  + (if s.ipBlk then W.ipBlack else 0)
  + (if s.ptrBot then W.ptrBot else 0)
  + (match s.ipqsFraud with
     | some f => clamp01 (f / 100) * W.ipqsFraud
     | none => 0)
  + (if s.ipqsProxy then W.ipqsProxy else 0)
  + (if s.ipqsVpn || s.ipqsActiveVpn then W.ipqsVpn else 0)
  + (if s.ipqsTor || s.ipqsActiveTor then W.ipqsTor else 0)
  + (if s.rateHigh then W.rateHigh else 0)
  + (if s.uniform then W.behaviorUniform else 0)
  + (if s.fast then W.behaviorFast else 0)
  + (if s.ipUntrusted then W.ipUntrusted else 0)
  + (if s.asnWatched then 0.12 else 0)
  + (if s.tlsPresent then W.tlsPresent else 0)
  + (if s.jsValid then W.jsNonceValid else 0)
  + (if s.fpValid then W.fpOk else 0)
  + (if s.humanActivity then W.activityOk else 0)
  + (if 0 < s.hpCount then W.hpHit else 0)

/-- `isBot`'s returned probability: `p = clamp01(p)`. -/
def isBotScore (W : Weights) (s : BotSignals) : ℚ :=
  clamp01 (unclampedScore W s)

/-- The `jsValid` flag of `isBot` (lines 537–545): despite the comment,
only the presence of a first dot-segment of the `human_signed` cookie is
checked — no signature verification happens. -/
def jsValidOfCookie (c : Option Bytes) : Bool :=
  match c with
  | none => false
  | some v => if v = [] then false else decide ((splitDot v).headD [] ≠ [])

/-! ## Session issuance (`pages/api/verify-challenge.ts`)

The payload of the `human_signed` session cookie, as built by the
object literal on the success path — which writes the key `exp` twice
(`exp: Date.now() + ttlSec*1000`, then `exp: expVariant`). -/

/-- The session-cookie payload fields (JavaScript object-literal
semantics applied to the handler's duplicate-key literal; `ttlSec` is the
handler's constant 1800). -/
def sessionPayloadFields (now : Int) (ipBase fpHash expVariant : Bytes) :
    List (Bytes × Json) :=
  jsObjLit [(lit "exp", .num (now + 30 * 60 * 1000)), (lit "ip_cidr", .str ipBase),
            (lit "fpHash", .str (fpHash.take 128)), (lit "exp", .str expVariant)]

/-- `typeof j?.exp === 'number'` for a looked-up field. -/
def isNumField (j : Option Json) : Bool :=
  match j with
  | some (.num _) => true
  | _ => false

/-! ## Decision Engine entry (`middleware` of `src/middleware.ts`)

The request-path decision sequence down to the session fast-path, which
is what the session-token claims exercise: `/welcome` demo, activation
gate (`OFFER_URL` present?), excluded paths, then the `human_signed`
cookie check.  All later stages (Google-referral allowlist, hard bans,
UA/ASN/IP blocklists, PTR, ensemble scoring and challenge issuance) run
only when the cookie is absent or empty and are abstracted as the
continuation `rest`; the fast-path theorems hold for every `rest`. -/

structure MwReq where
  pathname : Bytes
  cookies : List (Bytes × Bytes)

def cookieGet (req : MwReq) (name : Bytes) : Option Bytes :=
  (req.cookies.find? fun p => p.1 = name).map Prod.snd

inductive MwDecision where
  | welcome
  | bypass (reasons : List Bytes)
  | safe (reasons : List Bytes)
  | offer (reasons : List Bytes)
  | challenge (reasons : List Bytes)
deriving DecidableEq

def toLowerByte (c : Nat) : Nat := if 65 ≤ c ∧ c ≤ 90 then c + 32 else c

def assetExts : List Bytes :=
  [lit "png", lit "jpg", lit "jpeg", lit "gif", lit "svg", lit "ico", lit "css",
   lit "js", lit "map", lit "txt", lit "webp", lit "woff", lit "woff2", lit "ttf", lit "eot"]

/-- `isStaticAssetPath` of `utils/botCheck.ts`. -/
def isStaticAssetPath (p : Bytes) : Bool :=
  let lp := p.map toLowerByte
  assetExts.any fun e => (lit "." ++ e).isSuffixOf lp

/-- Paths exempt while the offer URL is unset (Safe Mode). -/
def excludedInactive (p : Bytes) : Bool :=
  (lit "/_next").isPrefixOf p || (lit "/api/").isPrefixOf p ||
  p == lit "/safe.html" || isStaticAssetPath p

/-- Paths that bypass cloaking entirely once activated. -/
def excludedActive (p : Bytes) : Bool :=
  (lit "/_next").isPrefixOf p || (lit "/api/").isPrefixOf p ||
  p == lit "/hc" || p == lit "/safe.html" || p == lit "/offer.html" || isStaticAssetPath p

/-- The middleware decision down to the session fast-path.  `offerUrl` is
the first `getOfferUrlRuntime()` result (activation gate), `offerUrl2`
the second one inside the fast-path (it selects redirect vs rewrite but
not the decision), `rest` the decision of all later stages. -/
def middlewareEntry (offerUrl offerUrl2 : Option Bytes) (rest : MwDecision) (req : MwReq) :
    MwDecision :=
  if req.pathname == lit "/welcome" then .welcome
  else match offerUrl with
  | none =>
    if excludedInactive req.pathname then .bypass [lit "inactive:env-missing"]
    else .safe [lit "inactive:env-missing"]
  | some _ =>
    if excludedActive req.pathname then .bypass [lit "matcher:excluded"]
    else match cookieGet req (lit "human_signed") with
      | some v => if v ≠ [] then .offer [lit "session:signed"] else rest
      | none => rest

/-! ## Helper lemmas -/

theorem memAssoc_update_self (m : Mem) (k : Bytes) (e : MemEntry) :
    memAssoc (memUpdate m k e) k = some e := by
  induction m with
  | nil => simp [memUpdate, memAssoc]
  | cons p rest ih =>
    obtain ⟨k1, e1⟩ := p
    by_cases h : k1 = k
    · simp [memUpdate, memAssoc, h]
    · simpa [memUpdate, memAssoc, h] using ih

theorem memAssoc_update_other (m : Mem) (k k2 : Bytes) (e : MemEntry) (h : k2 ≠ k) :
    memAssoc (memUpdate m k e) k2 = memAssoc m k2 := by
  induction m with
  | nil => simp [memUpdate, memAssoc, Ne.symm h]
  | cons p rest ih =>
    obtain ⟨k1, e1⟩ := p
    by_cases h1 : k1 = k
    · subst h1
      simp [memUpdate, memAssoc, Ne.symm h]
    · rw [show memUpdate ((k1, e1) :: rest) k e = (k1, e1) :: memUpdate rest k e from by
        simp [memUpdate, h1]]
      by_cases h2 : k1 = k2
      · subst h2
        simp [memAssoc, List.find?]
      · simpa [memAssoc, List.find?, h2] using ih

/-- Two appended byte strings differ when their left parts differ at a
common in-bounds index. -/
theorem append_ne_of_getq (p q a b : Bytes) (i : Nat) (hip : i < p.length)
    (hiq : i < q.length) (h : p[i]? ≠ q[i]?) : p ++ a ≠ q ++ b := by
  intro he
  apply h
  calc p[i]? = (p ++ a)[i]? := (List.getElem?_append_left hip).symm
    _ = (q ++ b)[i]? := by rw [he]
    _ = q[i]? := List.getElem?_append_left hiq

theorem rateIpKey_ne_rateFpKey (a b : Bytes) : rateIpKey a ≠ rateFpKey b := by
  apply append_ne_of_getq _ _ _ _ 5 (by decide) (by decide)
  decide

theorem rateIpKey_ne_rateAsnKey (a b : Bytes) : rateIpKey a ≠ rateAsnKey b := by
  apply append_ne_of_getq _ _ _ _ 5 (by decide) (by decide)
  decide

theorem rateFpKey_ne_rateAsnKey (a b : Bytes) : rateFpKey a ≠ rateAsnKey b := by
  apply append_ne_of_getq _ _ _ _ 5 (by decide) (by decide)
  decide

theorem tsKey_ne_rateIpKey (x y a : Bytes) : tsKey x y ≠ rateIpKey a := by
  apply append_ne_of_getq _ _ _ _ 0 (by decide) (by decide)
  decide

theorem tsKey_ne_rateFpKey (x y a : Bytes) : tsKey x y ≠ rateFpKey a := by
  apply append_ne_of_getq _ _ _ _ 0 (by decide) (by decide)
  decide

theorem tsKey_ne_rateAsnKey (x y a : Bytes) : tsKey x y ≠ rateAsnKey a := by
  apply append_ne_of_getq _ _ _ _ 0 (by decide) (by decide)
  decide

theorem rateFpKey_inj {a b : Bytes} (h : rateFpKey a = rateFpKey b) : a = b :=
  List.append_cancel_left h

theorem rateAsnKey_inj {a b : Bytes} (h : rateAsnKey a = rateAsnKey b) : a = b :=
  List.append_cancel_left h

theorem clamp01_nonneg (x : ℚ) : 0 ≤ clamp01 x := by
  unfold clamp01
  split_ifs <;> linarith

/-- Raising the pre-clamp accumulator strictly raises the clamped score as
long as the clamped score has not yet saturated at 1 (and the accumulator
is nonnegative, so the lower clamp is inactive). -/
theorem clamp01_lt_of_add_pos (u d : ℚ) (hu : 0 ≤ u) (hlt : clamp01 u < 1) (hd : 0 < d) :
    clamp01 u < clamp01 (u + d) := by
  unfold clamp01 at *
  split_ifs at * <;> linarith

theorem ite_nonneg_of (b : Prop) [Decidable b] (w : ℚ) (hw : 0 ≤ w) :
    0 ≤ if b then w else 0 := by
  split <;> simp [hw]

theorem ite_ge_weight (b : Prop) [Decidable b] (w : ℚ) (hw : w ≤ 0) :
    w ≤ if b then w else 0 := by
  split <;> simp [hw]

/-- With the default weight table the accumulator never goes below 0.16:
only the four trust signals carry negative weight. -/
theorem unclampedScore_ge (s : BotSignals) :
    (4 : ℚ) / 25 ≤ unclampedScore defaultWeights s := by
  have hf : (0 : ℚ) ≤ (match s.ipqsFraud with
      | some f => clamp01 (f / 100) * defaultWeights.ipqsFraud
      | none => (0 : ℚ)) := by
    cases s.ipqsFraud with
    | none => simp
    | some f =>
      have := clamp01_nonneg (f / 100)
      simp only [defaultWeights]
      positivity
  unfold unclampedScore
  have h1 := ite_nonneg_of (s.uaBlocked = true) defaultWeights.uaBlock (by norm_num [defaultWeights])
  have h2 := ite_nonneg_of (s.asnBlk = true) defaultWeights.asnBlack (by norm_num [defaultWeights])
  have h3 := ite_nonneg_of (s.ipBlk = true) defaultWeights.ipBlack (by norm_num [defaultWeights])
  have h4 := ite_nonneg_of (s.ptrBot = true) defaultWeights.ptrBot (by norm_num [defaultWeights])
  have h5 := ite_nonneg_of (s.ipqsProxy = true) defaultWeights.ipqsProxy (by norm_num [defaultWeights])
  have h6 := ite_nonneg_of ((s.ipqsVpn || s.ipqsActiveVpn) = true) defaultWeights.ipqsVpn
    (by norm_num [defaultWeights])
  have h7 := ite_nonneg_of ((s.ipqsTor || s.ipqsActiveTor) = true) defaultWeights.ipqsTor
    (by norm_num [defaultWeights])
  have h8 := ite_nonneg_of (s.rateHigh = true) defaultWeights.rateHigh (by norm_num [defaultWeights])
  have h9 := ite_nonneg_of (s.uniform = true) defaultWeights.behaviorUniform
    (by norm_num [defaultWeights])
  have h10 := ite_nonneg_of (s.fast = true) defaultWeights.behaviorFast (by norm_num [defaultWeights])
  have h11 := ite_nonneg_of (s.ipUntrusted = true) defaultWeights.ipUntrusted
    (by norm_num [defaultWeights])
  have h12 := ite_nonneg_of (s.asnWatched = true) (0.12 : ℚ) (by norm_num)
  have h13 := ite_ge_weight (s.tlsPresent = true) defaultWeights.tlsPresent
    (by norm_num [defaultWeights])
  have h14 := ite_ge_weight (s.jsValid = true) defaultWeights.jsNonceValid
    (by norm_num [defaultWeights])
  have h15 := ite_ge_weight (s.fpValid = true) defaultWeights.fpOk (by norm_num [defaultWeights])
  have h16 := ite_ge_weight (s.humanActivity = true) defaultWeights.activityOk
    (by norm_num [defaultWeights])
  have h17 := ite_nonneg_of (0 < s.hpCount) defaultWeights.hpHit (by norm_num [defaultWeights])
  have hwa : defaultWeights.tlsPresent = -(1 / 25 : ℚ) := by norm_num [defaultWeights]
  have hwb : defaultWeights.jsNonceValid = -(1 / 10 : ℚ) := by norm_num [defaultWeights]
  have hwc : defaultWeights.fpOk = -(1 / 10 : ℚ) := by norm_num [defaultWeights]
  have hwd : defaultWeights.activityOk = -(1 / 10 : ℚ) := by norm_num [defaultWeights]
  linarith [hf, h1, h2, h3, h4, h5, h6, h7, h8, h9, h10, h11, h12, h13, h14, h15, h16, h17,
    hwa, hwb, hwc, hwd]

theorem unclampedScore_hp_shift (s : BotSignals) (k : Nat) (h0 : s.hpCount = 0) (hk : 0 < k) :
    unclampedScore defaultWeights { s with hpCount := k }
      = unclampedScore defaultWeights s + 1 / 2 := by
  unfold unclampedScore
  simp only [h0]
  norm_num [defaultWeights, hk]

theorem unclampedScore_watch_shift (s : BotSignals) (h0 : s.asnWatched = false) :
    unclampedScore defaultWeights { s with asnWatched := true }
      = unclampedScore defaultWeights s + 12 / 100 := by
  unfold unclampedScore
  simp only [h0, Bool.false_eq_true, if_true, if_false, ite_false, ite_true]
  ring

/-- Watching an ASN makes it watched exactly until the end of its window. -/
theorem isASNWatched_watchASN (wl : Watchlist) (asn : Bytes) (ttlSec now now2 : Nat) :
    isASNWatched (watchASN wl asn ttlSec now) asn now2 = decide (now2 < now + ttlSec * 1000) := by
  induction wl with
  | nil => simp [watchASN, isASNWatched]
  | cons p rest ih =>
    obtain ⟨a, e⟩ := p
    by_cases h : a = asn
    · simp [watchASN, isASNWatched, h]
    · simpa [watchASN, isASNWatched, h] using ih

theorem kvIncrNoKV_of_assoc_none (m : Mem) (k : Bytes) (ttl now : Nat)
    (h : memAssoc m k = none) :
    kvIncrNoKV m k ttl now = (1, memUpdate m k ⟨.num 1, now + ttl * 1000, []⟩) := by
  simp [kvIncrNoKV, memGet, h]

theorem kvIncrNoKV_of_assoc_live (m : Mem) (k : Bytes) (ttl now c e : Nat) (ts : List Nat)
    (h : memAssoc m k = some ⟨.num c, e, ts⟩) (hlive : ¬(e ≠ 0 ∧ e < now)) :
    kvIncrNoKV m k ttl now = (c + 1, memUpdate m k ⟨.num (c + 1), now + ttl * 1000, ts⟩) := by
  simp [kvIncrNoKV, memGet, h, hlive]

/-- C2: the code_bug evaluated.  With a configured `SIGN_KEY` the
round-trip `verify(issue(P)) = P` holds for a payload with future `exp`;
with no key configured, `getSignKey` draws a fresh
`'ephemeral-' + Math.random()` value on *each* call (there is no
once-per-process caching), so the verifying call uses a different secret
than the signing call and the round-trip yields `null` instead of `P`. -/
theorem c2_ephemeral_secret_bug :
    verifySignedPayload (getSignKey (some (lit "s3cret")) (lit "r1"))
        (signPayload (getSignKey (some (lit "s3cret")) (lit "r2"))
          (lit "\x7b\"exp\":4102444800000\x7d")) 1700000000000
      = some (lit "\x7b\"exp\":4102444800000\x7d")
  ∧ verifySignedPayload (getSignKey none (lit "r1"))
        (signPayload (getSignKey none (lit "r2"))
          (lit "\x7b\"exp\":4102444800000\x7d")) 1700000000000
      = none := by
  constructor
  · decide
  · decide

/-- C4: the session payload built by `pages/api/verify-challenge.ts` on
success.  The object literal writes `exp` twice — the absolute expiry
number, then the experiment-variant string — so the serialized payload's
`exp` field is the string (here `"control"`), not
`Date.now() + ttlSec*1000`; the `ip_cidr` and `fpHash` bindings are
present. -/
theorem c4_session_exp_bug :
    jsonStr (.obj (sessionPayloadFields 1700000000000 (lit "1.2.3.0/24") (lit "abc") (lit "control")))
      = lit "\x7b\"exp\":\"control\",\"ip_cidr\":\"1.2.3.0/24\",\"fpHash\":\"abc\"\x7d"
  ∧ isNumField (jLookupLast
      (sessionPayloadFields 1700000000000 (lit "1.2.3.0/24") (lit "abc") (lit "control"))
      (lit "exp")) = false
  ∧ Json.num (1700000000000 + 30 * 60 * 1000) ≠
      Json.str (lit "control") := by
  refine ⟨by decide, by decide, by intro h; injection h⟩

/-- C5 counterexample: in the in-process fallback of `kvIncr`, the second
increment of a key inside its window (first at `t = 0` with a 10-second
TTL, second at `t = 5000`) increases the count to 2 but *changes* the
stored expiry from 10000 to 15000 — the TTL is refreshed, not
truncated-window. -/
theorem c5_counterexample :
    (memAssoc (kvIncrNoKV [] (lit "k") 10 0).2 (lit "k")).map MemEntry.exp = some 10000
  ∧ (kvIncrNoKV (kvIncrNoKV [] (lit "k") 10 0).2 (lit "k") 10 5000).1 = 2
  ∧ (memAssoc (kvIncrNoKV (kvIncrNoKV [] (lit "k") 10 0).2 (lit "k") 10 5000).2
      (lit "k")).map MemEntry.exp = some 15000 := by
  refine ⟨by decide, by decide, by decide⟩

/-- C5 amended: in the remote-backed path of `kvIncr` the TTL (`/expire`)
is sent only when the returned count is 1, so a later increment inside
the window leaves the remote expiry untouched; the in-process fallback,
however, rewrites the stored expiry to `now + ttl*1000` on every
increment (a sliding window, not a truncated one). -/
theorem c5_amended :
    (∀ (m : Mem) (k : Bytes) (ttl now n : Nat), n ≠ 1 →
      kvIncrCfg true (some n) m k ttl now = (n, m, [RemoteCmd.incr k]))
  ∧ (∀ (m : Mem) (k : Bytes) (ttl now : Nat),
      kvIncrCfg true (some 1) m k ttl now = (1, m, [RemoteCmd.incr k, RemoteCmd.expire k ttl]))
  ∧ (∀ (m : Mem) (k : Bytes) (ttl now : Nat),
      (memAssoc (kvIncrNoKV m k ttl now).2 k).map MemEntry.exp = some (now + ttl * 1000)) := by
  refine ⟨fun m k ttl now n h => by simp [kvIncrCfg, h],
         fun m k ttl now => by simp [kvIncrCfg],
         fun m k ttl now => by simp [kvIncrNoKV, memAssoc_update_self]⟩

/-- C5 amended, witness. -/
theorem c5_amended_witness :
    kvIncrCfg true (some 2) [] (lit "k") 10 0 = (2, [], [RemoteCmd.incr (lit "k")])
  ∧ (memAssoc (kvIncrNoKV [] (lit "k") 10 5000).2 (lit "k")).map MemEntry.exp = some 15000 :=
  ⟨c5_amended.1 [] (lit "k") 10 0 2 (by decide), c5_amended.2.2 [] (lit "k") 10 5000⟩

/-- C8 counterexample: with the remote store configured but the `/get`
call failing (`none`), `getAndSetBinding` reports `changed = true` with
`prev = null` and never touches the in-process map — while the
not-configured call on the identical state reports `changed = false`
with `prev` equal to the stored value.  The two behaviours differ, so a
failed remote call is *not* treated like missing configuration. -/
theorem c8_counterexample :
    (getAndSetBindingCfg true none
        [(lit "fp:x", ⟨.str (lit "1.2.3.0/24"), 9000000, []⟩)]
        (lit "fp:x") (lit "1.2.3.0/24") 900 100).1
      = (true, none)
  ∧ (getAndSetBindingCfg false none
        [(lit "fp:x", ⟨.str (lit "1.2.3.0/24"), 9000000, []⟩)]
        (lit "fp:x") (lit "1.2.3.0/24") 900 100).1
      = (false, some (.str (lit "1.2.3.0/24"))) := by
  refine ⟨by decide, by decide⟩

/-- C8 amended: on a failed/non-success remote call, `increment`
(`kvIncr`) and `setWithExpiry` (`kvSetEx`) do fall back to the in-process
map exactly as in the not-configured case, but `getAndSetBinding` returns
a result derived from the failed `/get` (`prev = null`, `changed = true`)
without consulting or updating the in-process map, and `getHoneypotHits`
returns 0 regardless of the in-process map's contents. -/
theorem c8_amended :
    (∀ (m : Mem) (k : Bytes) (ttl now : Nat),
      kvIncrCfg true none m k ttl now
        = ((kvIncrCfg false none m k ttl now).1, (kvIncrCfg false none m k ttl now).2.1,
           [RemoteCmd.incr k]))
  ∧ (∀ (m : Mem) (k v : Bytes) (ttl now : Nat),
      kvSetExM false m k v ttl now = (true, memSet m k (.str v) ttl now))
  ∧ (∀ (m : Mem) (k v : Bytes) (ttl now : Nat),
      getAndSetBindingCfg true none m k v ttl now
        = ((true, none), m, [RemoteCmd.rget k, RemoteCmd.setex k v ttl]))
  ∧ (∀ (m : Mem) (ip : Bytes) (now : Nat),
      getHoneypotHitsCfg true none m ip now = 0) := by
  refine ⟨fun m k ttl now => by simp [kvIncrCfg],
         fun m k v ttl now => by simp [kvSetExM],
         fun m k v ttl now => by simp [getAndSetBindingCfg],
         fun m ip now => by simp [getHoneypotHitsCfg]⟩

/-- C10 counterexample: `getAndSetBinding(key, "", ttl)` called twice in
succession (fallback store, second call within the TTL) reports
`changed = true` with `prev = null` on the second call, because
`(e?.v as string) || null` collapses the stored empty string to `null`
before the strict comparison. -/
theorem c10_counterexample :
    (getAndSetBindingNoKV (getAndSetBindingNoKV [] (lit "k") (lit "") 600 0).2
      (lit "k") (lit "") 600 1000).1 = (true, none) := by
  decide

/-- C10 amended: for every *non-empty* value `v`, two successive
`getAndSetBinding(key, v, ttl)` calls (the second within the TTL) report
`changed = false` with `prev = v`, in the fallback store and equally in
the remote path when the `/get` response returns the stored value. -/
theorem c10_amended (m : Mem) (k v : Bytes) (ttl now1 now2 : Nat)
    (hv : v ≠ []) (hwin : now2 ≤ now1 + ttl * 1000) :
    (getAndSetBindingNoKV (getAndSetBindingNoKV m k v ttl now1).2 k v ttl now2).1
      = (false, some (.str v))
  ∧ (getAndSetBindingCfg true (some (some v)) m k v ttl now2).1
      = (false, some (.str v)) := by
  constructor
  · have hm : memAssoc (memSet m k (.str v) ttl now1) k
        = some ⟨.str v, now1 + ttl * 1000, []⟩ := by
      simp [memSet, memAssoc_update_self]
    simp only [getAndSetBindingNoKV, memGet, hm]
    rw [if_neg (show ¬(now1 + ttl * 1000 ≠ 0 ∧ now1 + ttl * 1000 < now2) by omega)]
    simp [hv]
  · simp [getAndSetBindingCfg]

/-- C10 amended, witness. -/
theorem c10_amended_witness :
    (getAndSetBindingNoKV (getAndSetBindingNoKV [] (lit "k") (lit "v") 600 0).2
      (lit "k") (lit "v") 600 1000).1 = (false, some (.str (lit "v")))
  ∧ (getAndSetBindingCfg true (some (some (lit "v"))) [] (lit "k") (lit "v") 600 1000).1
      = (false, some (.str (lit "v"))) :=
  c10_amended [] (lit "k") (lit "v") 600 0 1000 (by decide) (by decide)

/-- C1 counterexample: a request carrying a `human_signed` cookie whose
value is not even a well-formed token (no `.` separator, so
`verifySignedPayload` rejects it under any secret) still receives the
`offer` fast-path with reason `session:signed` from the middleware, and
`isBot`'s `jsValid` trust flag is likewise granted on mere presence. -/
theorem c1_counterexample :
    middlewareEntry (some (lit "https://offer.example")) (some (lit "https://offer.example"))
        (.safe []) ⟨lit "/", [(lit "human_signed", lit "deadbeef")]⟩
      = .offer [lit "session:signed"]
  ∧ verifySignedPayload (lit "s3cret") (lit "deadbeef") 0 = none
  ∧ jsValidOfCookie (some (lit "deadbeef")) = true := by
  refine ⟨by decide, by decide, by decide⟩

/-- C1 amended: past the `/welcome` demo, activation gate and excluded
paths, the middleware grants the `offer` fast-path to *every* request
whose `human_signed` cookie is present and non-empty — the cookie's
signature and expiry are not verified on this path (the code defers full
verification to the API, which is not consulted here), so malformed,
forged or expired session cookies also receive the fast-path. -/
theorem c1_amended (offerUrl2 : Option Bytes) (u : Bytes) (rest : MwDecision)
    (req : MwReq) (v : Bytes)
    (hw : req.pathname ≠ lit "/welcome") (hex : excludedActive req.pathname = false)
    (hcookie : cookieGet req (lit "human_signed") = some v) (hv : v ≠ []) :
    middlewareEntry (some u) offerUrl2 rest req = .offer [lit "session:signed"] := by
  unfold middlewareEntry
  rw [if_neg (by simpa using hw)]
  rw [hex]
  simp [hcookie, hv]

/-- C1 amended, witness. -/
theorem c1_amended_witness :
    middlewareEntry (some (lit "https://offer.example")) none (.safe [])
        ⟨lit "/landing", [(lit "human_signed", lit "forged.token")]⟩
      = .offer [lit "session:signed"] :=
  c1_amended none (lit "https://offer.example") (.safe [])
    ⟨lit "/landing", [(lit "human_signed", lit "forged.token")]⟩ (lit "forged.token")
    (by decide) (by decide) (by decide) (by decide)

/-- C6 counterexample: two signal vectors identical except for the
honeypot hit count (0 vs 1) — user-agent blocklisted, ASN and IP
blacklisted, everything else clear.  Both accumulate past 1 and are
clamped to exactly 1, so the probability with hits is *not* strictly
greater than without. -/
theorem c6_counterexample :
    isBotScore defaultWeights
      { uaBlocked := true, asnBlk := true, ipBlk := true, ptrBot := false,
        ipqsFraud := none, ipqsProxy := false, ipqsVpn := false, ipqsActiveVpn := false,
        ipqsTor := false, ipqsActiveTor := false, rateHigh := false, uniform := false,
        fast := false, ipUntrusted := false, asnWatched := false, tlsPresent := false,
        jsValid := false, fpValid := false, humanActivity := false, hpCount := 1 } = 1
  ∧ isBotScore defaultWeights
      { uaBlocked := true, asnBlk := true, ipBlk := true, ptrBot := false,
        ipqsFraud := none, ipqsProxy := false, ipqsVpn := false, ipqsActiveVpn := false,
        ipqsTor := false, ipqsActiveTor := false, rateHigh := false, uniform := false,
        fast := false, ipUntrusted := false, asnWatched := false, tlsPresent := false,
        jsValid := false, fpValid := false, humanActivity := false, hpCount := 0 } = 1 := by
  refine ⟨by norm_num [isBotScore, unclampedScore, defaultWeights, clamp01],
         by norm_num [isBotScore, unclampedScore, defaultWeights, clamp01]⟩

/-- C6 amended: after one `incHoneypot(ip)` call the fallback
`getHoneypotHits(ip)` is at least 1 for the rest of the TTL, and the
`isBot` probability (default weights) of a request with a positive hit
count is strictly greater than the otherwise-identical request with zero
hits *provided* the zero-hit probability has not already been clamped at
1 (the `hp_hit` weight of 0.50 is added before `clamp01`). -/
theorem c6_amended (m : Mem) (ip : Bytes) (ttl t now2 : Nat) (s : BotSignals) (k : Nat)
    (hwin : now2 ≤ t + ttl * 1000) (h0 : s.hpCount = 0) (hk : 0 < k)
    (hlt : isBotScore defaultWeights s < 1) :
    1 ≤ getHoneypotHitsNoKV (incHoneypotNoKV m ip ttl t) ip now2
  ∧ isBotScore defaultWeights s < isBotScore defaultWeights { s with hpCount := k } := by
  constructor
  · have main : ∀ (n : Nat) (ts : List Nat),
        getHoneypotHitsNoKV (memUpdate m (hpKey ip) ⟨.num n, t + ttl * 1000, ts⟩) ip now2 = n := by
      intro n ts
      unfold getHoneypotHitsNoKV memGet
      rw [memAssoc_update_self]
      dsimp only
      rw [if_neg (show ¬(t + ttl * 1000 ≠ 0 ∧ t + ttl * 1000 < now2) by omega)]
    cases hmg : memGet m (hpKey ip) t with
    | none =>
      have heq : incHoneypotNoKV m ip ttl t
          = memUpdate m (hpKey ip) ⟨.num 1, t + ttl * 1000, []⟩ := by
        simp [incHoneypotNoKV, kvIncrNoKV, hmg]
      rw [heq, main 1 []]
    | some e =>
      obtain ⟨ev, eexp, ets⟩ := e
      cases ev with
      | num c =>
        have heq : incHoneypotNoKV m ip ttl t
            = memUpdate m (hpKey ip) ⟨.num (c + 1), t + ttl * 1000, ets⟩ := by
          simp [incHoneypotNoKV, kvIncrNoKV, hmg]
        rw [heq, main (c + 1) ets]
        omega
      | str sv =>
        have heq : incHoneypotNoKV m ip ttl t
            = memUpdate m (hpKey ip) ⟨.num 1, t + ttl * 1000, ets⟩ := by
          simp [incHoneypotNoKV, kvIncrNoKV, hmg]
        rw [heq, main 1 ets]
  · have hb := unclampedScore_ge s
    have hshift := unclampedScore_hp_shift s k h0 hk
    have hmono := clamp01_lt_of_add_pos (unclampedScore defaultWeights s) (1 / 2)
      (by linarith) (by simpa [isBotScore] using hlt) (by norm_num)
    simpa [isBotScore, hshift] using hmono

/-- C6 amended, witness. -/
theorem c6_amended_witness :
    1 ≤ getHoneypotHitsNoKV (incHoneypotNoKV [] (lit "1.2.3.4") 21600 0) (lit "1.2.3.4") 1000
  ∧ isBotScore defaultWeights
      { uaBlocked := false, asnBlk := false, ipBlk := false, ptrBot := false,
        ipqsFraud := none, ipqsProxy := false, ipqsVpn := false, ipqsActiveVpn := false,
        ipqsTor := false, ipqsActiveTor := false, rateHigh := false, uniform := false,
        fast := false, ipUntrusted := false, asnWatched := false, tlsPresent := false,
        jsValid := false, fpValid := false, humanActivity := false, hpCount := 0 }
    < isBotScore defaultWeights
      { uaBlocked := false, asnBlk := false, ipBlk := false, ptrBot := false,
        ipqsFraud := none, ipqsProxy := false, ipqsVpn := false, ipqsActiveVpn := false,
        ipqsTor := false, ipqsActiveTor := false, rateHigh := false, uniform := false,
        fast := false, ipUntrusted := false, asnWatched := false, tlsPresent := false,
        jsValid := false, fpValid := false, humanActivity := false, hpCount := 1 } :=
  c6_amended [] (lit "1.2.3.4") 21600 0 1000
    { uaBlocked := false, asnBlk := false, ipBlk := false, ptrBot := false,
      ipqsFraud := none, ipqsProxy := false, ipqsVpn := false, ipqsActiveVpn := false,
      ipqsTor := false, ipqsActiveTor := false, rateHigh := false, uniform := false,
      fast := false, ipUntrusted := false, asnWatched := false, tlsPresent := false,
      jsValid := false, fpValid := false, humanActivity := false, hpCount := 0 } 1
    (by omega) rfl (by omega)
    (by norm_num [isBotScore, unclampedScore, defaultWeights, clamp01])

/-- C9 counterexample: a co-tenant request already saturating the clamp —
user-agent blocklisted, ASN and IP blacklisted — receives probability 1
whether or not its ASN is on the watchlist, so the watch entry does not
raise its assessed risk. -/
theorem c9_counterexample :
    isBotScore defaultWeights
      { uaBlocked := true, asnBlk := true, ipBlk := true, ptrBot := true,
        ipqsFraud := none, ipqsProxy := false, ipqsVpn := false, ipqsActiveVpn := false,
        ipqsTor := false, ipqsActiveTor := false, rateHigh := false, uniform := false,
        fast := false, ipUntrusted := false, asnWatched := true, tlsPresent := false,
        jsValid := false, fpValid := false, humanActivity := false, hpCount := 0 }
    = isBotScore defaultWeights
      { uaBlocked := true, asnBlk := true, ipBlk := true, ptrBot := true,
        ipqsFraud := none, ipqsProxy := false, ipqsVpn := false, ipqsActiveVpn := false,
        ipqsTor := false, ipqsActiveTor := false, rateHigh := false, uniform := false,
        fast := false, ipUntrusted := false, asnWatched := false, tlsPresent := false,
        jsValid := false, fpValid := false, humanActivity := false, hpCount := 0 } := by
  norm_num [isBotScore, unclampedScore, defaultWeights, clamp01]

/-- C9 amended: a honeypot hit with a resolvable ASN places that ASN on
the watchlist for two hours — `isASNWatched` holds at every instant of
that window — and a watched ASN raises the `isBot` probability of a
co-tenant request (default weights, hard-coded +0.12) strictly *provided*
the unwatched probability has not already been clamped at 1. -/
theorem c9_amended (m : Mem) (wl : Watchlist) (ip : Bytes) (a : Int) (t now2 : Nat)
    (s : BotSignals)
    (hwin : now2 < t + 2 * 60 * 60 * 1000) (hw : s.asnWatched = false)
    (hlt : isBotScore defaultWeights s < 1) :
    isASNWatched (honeytrapGET m wl ip (some a) t).2 (lit (toString a)) now2 = true
  ∧ isBotScore defaultWeights s < isBotScore defaultWeights { s with asnWatched := true } := by
  constructor
  · have : (honeytrapGET m wl ip (some a) t).2
        = watchASN wl (lit (toString a)) (2 * 60 * 60) t := by
      simp [honeytrapGET]
    rw [this, isASNWatched_watchASN]
    simpa using hwin
  · have hb := unclampedScore_ge s
    have hshift := unclampedScore_watch_shift s hw
    have hmono := clamp01_lt_of_add_pos (unclampedScore defaultWeights s) (12 / 100)
      (by linarith) (by simpa [isBotScore] using hlt) (by norm_num)
    simpa [isBotScore, hshift] using hmono

/-- C9 amended, witness. -/
theorem c9_amended_witness :
    isASNWatched (honeytrapGET [] [] (lit "1.2.3.4") (some 16509) 0).2 (lit "16509") 1000 = true
  ∧ isBotScore defaultWeights
      { uaBlocked := false, asnBlk := false, ipBlk := false, ptrBot := false,
        ipqsFraud := none, ipqsProxy := false, ipqsVpn := false, ipqsActiveVpn := false,
        ipqsTor := false, ipqsActiveTor := false, rateHigh := false, uniform := false,
        fast := false, ipUntrusted := false, asnWatched := false, tlsPresent := false,
        jsValid := false, fpValid := false, humanActivity := false, hpCount := 0 }
    < isBotScore defaultWeights
      { uaBlocked := false, asnBlk := false, ipBlk := false, ptrBot := false,
        ipqsFraud := none, ipqsProxy := false, ipqsVpn := false, ipqsActiveVpn := false,
        ipqsTor := false, ipqsActiveTor := false, rateHigh := false, uniform := false,
        fast := false, ipUntrusted := false, asnWatched := true, tlsPresent := false,
        jsValid := false, fpValid := false, humanActivity := false, hpCount := 0 } :=
  c9_amended [] [] (lit "1.2.3.4") 16509 0 1000
    { uaBlocked := false, asnBlk := false, ipBlk := false, ptrBot := false,
      ipqsFraud := none, ipqsProxy := false, ipqsVpn := false, ipqsActiveVpn := false,
      ipqsTor := false, ipqsActiveTor := false, rateHigh := false, uniform := false,
      fast := false, ipUntrusted := false, asnWatched := false, tlsPresent := false,
      jsValid := false, fpValid := false, humanActivity := false, hpCount := 0 }
    (by omega) rfl
    (by norm_num [isBotScore, unclampedScore, defaultWeights, clamp01])

/-- C3 counterexample: flipping bit 1 of the second character of the
payload segment of `signPayload("0")` under key `"k"` (the base64url
character `A` becomes `C`, a one-bit change inside the final group's
four padding bits) yields a *different* token string that decodes to the
same payload bytes — and `verifySignedPayload` accepts it, returning the
payload instead of `null`. -/
theorem c3_counterexample :
    flipBit (signPayload (lit "k") (lit "0")) 1 1 ≠ signPayload (lit "k") (lit "0")
  ∧ verifySignedPayload (lit "k") (flipBit (signPayload (lit "k") (lit "0")) 1 1) 1700000000000
      = some (lit "0") := by
  refine ⟨by decide, by decide⟩

/-- C3 amended: verification rejects every token — in particular every
bit-flipped token — whose two segments do not decode to a byte pair
`(B, S)` with `S` equal to the recomputed MAC of `B` under the secret;
a flip that alters a segment's decoded bytes is thus rejected unless it
forges the MAC, while a flip confined to base64url padding bits decodes
identically and still verifies. -/
theorem c3_amended (key t : Bytes) (now : Int)
    (h : ∀ p s B S, tokenSegs t = some (p, s) → fromB64url p = some B → fromB64url s = some S →
      hmacSHA256 key B ≠ S) :
    verifySignedPayload key t now = none := by
  unfold verifySignedPayload
  rcases ht : tokenSegs t with _ | ⟨p, s⟩
  · rfl
  · simp only
    rcases hp : fromB64url p with _ | B
    · rfl
    · rcases hs : fromB64url s with _ | S
      · rfl
      · have hne := h p s B S ht hp hs
        dsimp only
        by_cases hl : (hmacSHA256 key B).length = S.length
        · rw [if_neg (show ¬((hmacSHA256 key B).length ≠ S.length) from by simpa using hl),
            if_pos hne]
        · rw [if_pos hl]

/-- C3 amended, witness: flipping bit 0 of the first payload-segment
character (`M` becomes `L`) changes the decoded payload byte from 0x30
to 0x2C, whose MAC differs from the token's, so verification rejects. -/
theorem c3_amended_witness :
    verifySignedPayload (lit "k") (flipBit (signPayload (lit "k") (lit "0")) 0 0) 1700000000000
      = none := by
  apply c3_amended
  intro p s B S h1 h2 h3
  rw [show tokenSegs (flipBit (signPayload (lit "k") (lit "0")) 0 0)
      = some (lit "LA", b64url (hmacSHA256 (lit "k") (lit "0"))) from by decide] at h1
  simp only [Option.some.injEq, Prod.mk.injEq] at h1
  obtain ⟨hp, hs⟩ := h1
  subst hp
  subst hs
  rw [show fromB64url (lit "LA") = some [44] from by decide] at h2
  simp only [Option.some.injEq] at h2
  subst h2
  rw [show fromB64url (b64url (hmacSHA256 (lit "k") (lit "0")))
      = some (hmacSHA256 (lit "k") (lit "0")) from by decide] at h3
  simp only [Option.some.injEq] at h3
  subst h3
  decide

/-- State invariant for iterated `bumpCountersAndGetPenalty` calls of one
address inside one window: after `k` calls the address counter holds
exactly `k`, and the fingerprint/ASN counters of all later calls are
still absent. -/
theorem bumpIter_state (ip : Bytes) (fps asns : Nat → Bytes)
    (hfps : Function.Injective fps) (hasns : Function.Injective asns)
    (w pI pF pA now : Nat) :
    ∀ k : Nat,
      (memAssoc (bumpIter ip fps asns w pI pF pA now k).2 (rateIpKey ip)
        = if k = 0 then none else some ⟨.num k, now + w * 1000, []⟩)
    ∧ (∀ j, k < j →
        memAssoc (bumpIter ip fps asns w pI pF pA now k).2 (rateFpKey (fps j)) = none
      ∧ memAssoc (bumpIter ip fps asns w pI pF pA now k).2 (rateAsnKey (asns j)) = none) := by
  intro k
  induction k with
  | zero =>
    exact ⟨by simp [bumpIter, memAssoc],
      fun j hj => ⟨by simp [bumpIter, memAssoc], by simp [bumpIter, memAssoc]⟩⟩
  | succ k ih =>
    obtain ⟨ih1, ih2⟩ := ih
    set M := (bumpIter ip fps asns w pI pF pA now k).2 with hM
    have hr1 : kvIncrNoKV M (rateIpKey ip) w now
        = (k + 1, memUpdate M (rateIpKey ip) ⟨.num (k + 1), now + w * 1000, []⟩) := by
      rcases Nat.eq_zero_or_pos k with hk0 | hkp
      · subst hk0
        exact kvIncrNoKV_of_assoc_none _ _ _ _ (by simpa using ih1)
      · have hsome : memAssoc M (rateIpKey ip) = some ⟨.num k, now + w * 1000, []⟩ := by
          rw [ih1, if_neg (by omega)]
        exact kvIncrNoKV_of_assoc_live _ _ _ _ _ _ _ hsome (by omega)
    have hm1fp : memAssoc (memUpdate M (rateIpKey ip) ⟨.num (k + 1), now + w * 1000, []⟩)
        (rateFpKey (fps (k + 1))) = none := by
      rw [memAssoc_update_other _ _ _ _ (Ne.symm (rateIpKey_ne_rateFpKey ip (fps (k + 1))))]
      exact (ih2 (k + 1) (Nat.lt_succ_self k)).1
    have hr2 : kvIncrNoKV (memUpdate M (rateIpKey ip) ⟨.num (k + 1), now + w * 1000, []⟩)
        (rateFpKey (fps (k + 1))) w now
        = (1, memUpdate (memUpdate M (rateIpKey ip) ⟨.num (k + 1), now + w * 1000, []⟩)
            (rateFpKey (fps (k + 1))) ⟨.num 1, now + w * 1000, []⟩) :=
      kvIncrNoKV_of_assoc_none _ _ _ _ hm1fp
    set m2 := memUpdate (memUpdate M (rateIpKey ip) ⟨.num (k + 1), now + w * 1000, []⟩)
        (rateFpKey (fps (k + 1))) ⟨.num 1, now + w * 1000, []⟩ with hm2def
    have hm2asn : memAssoc m2 (rateAsnKey (asns (k + 1))) = none := by
      rw [hm2def,
        memAssoc_update_other _ _ _ _ (Ne.symm (rateFpKey_ne_rateAsnKey (fps (k + 1)) (asns (k + 1)))),
        memAssoc_update_other _ _ _ _ (Ne.symm (rateIpKey_ne_rateAsnKey ip (asns (k + 1))))]
      exact (ih2 (k + 1) (Nat.lt_succ_self k)).2
    have hr3 : kvIncrNoKV m2 (rateAsnKey (asns (k + 1))) w now
        = (1, memUpdate m2 (rateAsnKey (asns (k + 1))) ⟨.num 1, now + w * 1000, []⟩) :=
      kvIncrNoKV_of_assoc_none _ _ _ _ hm2asn
    have hstep : (bumpIter ip fps asns w pI pF pA now (k + 1)).2
        = memUpdate (memUpdate m2 (rateAsnKey (asns (k + 1))) ⟨.num 1, now + w * 1000, []⟩)
            (tsKey ip (fps (k + 1)))
            (let e := match memGet (memUpdate m2 (rateAsnKey (asns (k + 1)))
                  ⟨.num 1, now + w * 1000, []⟩) (tsKey ip (fps (k + 1))) now with
                | some e => e
                | none => ⟨.num 0, now + w * 1000, []⟩
             ⟨e.v, e.exp, (e.times ++ [now]).drop (e.times.length + 1 - 10)⟩) := by
      show (bumpCountersNoKV M ip (fps (k + 1)) (asns (k + 1)) w pI pF pA now).2 = _
      rw [bumpCountersNoKV]
      rw [hr1]
      dsimp only
      rw [hr2]
      dsimp only
      rw [hr3]
    constructor
    · rw [hstep,
        memAssoc_update_other _ _ _ _ (Ne.symm (tsKey_ne_rateIpKey ip (fps (k + 1)) ip)),
        memAssoc_update_other _ _ _ _ (rateIpKey_ne_rateAsnKey ip (asns (k + 1))), hm2def,
        memAssoc_update_other _ _ _ _ (rateIpKey_ne_rateFpKey ip (fps (k + 1))),
        memAssoc_update_self, if_neg (Nat.succ_ne_zero k)]
    · intro j hj
      have hjne : j ≠ k + 1 := by omega
      constructor
      · rw [hstep,
          memAssoc_update_other _ _ _ _ (Ne.symm (tsKey_ne_rateFpKey ip (fps (k + 1)) (fps j))),
          memAssoc_update_other _ _ _ _ (rateFpKey_ne_rateAsnKey (fps j) (asns (k + 1))), hm2def,
          memAssoc_update_other _ _ _ _ (fun hh => hjne (hfps (rateFpKey_inj hh))),
          memAssoc_update_other _ _ _ _ (Ne.symm (rateIpKey_ne_rateFpKey ip (fps j)))]
        exact (ih2 j (by omega)).1
      · rw [hstep,
          memAssoc_update_other _ _ _ _ (Ne.symm (tsKey_ne_rateAsnKey ip (fps (k + 1)) (asns j))),
          memAssoc_update_other _ _ _ _ (fun hh => hjne (hasns (rateAsnKey_inj hh))), hm2def,
          memAssoc_update_other _ _ _ _ (Ne.symm (rateFpKey_ne_rateAsnKey (fps (k + 1)) (asns j))),
          memAssoc_update_other _ _ _ _ (Ne.symm (rateIpKey_ne_rateAsnKey ip (asns j)))]
        exact (ih2 j (by omega)).2

/-- C7: `n` calls of `bumpCountersAndGetPenalty` for one address inside
one window (fresh fingerprint and ASN per call, so only the per-address
counter accumulates, and per-fingerprint/per-ASN limits of at least 1 are
not exceeded) report `rateHigh` exactly when the count strictly exceeds
the per-address limit: `limit + 1` calls give `true`, exactly `limit`
calls give `false`. -/
theorem c7_rate_limit_boundary (ip : Bytes) (fps asns : Nat → Bytes)
    (hfps : Function.Injective fps) (hasns : Function.Injective asns)
    (w pI pF pA now n : Nat) (hpF : 1 ≤ pF) (hpA : 1 ≤ pA) (hn : 1 ≤ n) :
    ((bumpIter ip fps asns w pI pF pA now n).1).rateHigh = decide (pI < n) := by
  obtain ⟨k, rfl⟩ : ∃ k, n = k + 1 := ⟨n - 1, by omega⟩
  obtain ⟨ih1, ih2⟩ := bumpIter_state ip fps asns hfps hasns w pI pF pA now k
  set M := (bumpIter ip fps asns w pI pF pA now k).2 with hM
  have hr1 : kvIncrNoKV M (rateIpKey ip) w now
      = (k + 1, memUpdate M (rateIpKey ip) ⟨.num (k + 1), now + w * 1000, []⟩) := by
    rcases Nat.eq_zero_or_pos k with hk0 | hkp
    · subst hk0
      exact kvIncrNoKV_of_assoc_none _ _ _ _ (by simpa using ih1)
    · have hsome : memAssoc M (rateIpKey ip) = some ⟨.num k, now + w * 1000, []⟩ := by
        rw [ih1, if_neg (by omega)]
      exact kvIncrNoKV_of_assoc_live _ _ _ _ _ _ _ hsome (by omega)
  have hm1fp : memAssoc (memUpdate M (rateIpKey ip) ⟨.num (k + 1), now + w * 1000, []⟩)
      (rateFpKey (fps (k + 1))) = none := by
    rw [memAssoc_update_other _ _ _ _ (Ne.symm (rateIpKey_ne_rateFpKey ip (fps (k + 1))))]
    exact (ih2 (k + 1) (Nat.lt_succ_self k)).1
  have hr2 : kvIncrNoKV (memUpdate M (rateIpKey ip) ⟨.num (k + 1), now + w * 1000, []⟩)
      (rateFpKey (fps (k + 1))) w now
      = (1, memUpdate (memUpdate M (rateIpKey ip) ⟨.num (k + 1), now + w * 1000, []⟩)
          (rateFpKey (fps (k + 1))) ⟨.num 1, now + w * 1000, []⟩) :=
    kvIncrNoKV_of_assoc_none _ _ _ _ hm1fp
  set m2 := memUpdate (memUpdate M (rateIpKey ip) ⟨.num (k + 1), now + w * 1000, []⟩)
      (rateFpKey (fps (k + 1))) ⟨.num 1, now + w * 1000, []⟩ with hm2def
  have hm2asn : memAssoc m2 (rateAsnKey (asns (k + 1))) = none := by
    rw [hm2def,
      memAssoc_update_other _ _ _ _ (Ne.symm (rateFpKey_ne_rateAsnKey (fps (k + 1)) (asns (k + 1)))),
      memAssoc_update_other _ _ _ _ (Ne.symm (rateIpKey_ne_rateAsnKey ip (asns (k + 1))))]
    exact (ih2 (k + 1) (Nat.lt_succ_self k)).2
  have hr3 : kvIncrNoKV m2 (rateAsnKey (asns (k + 1))) w now
      = (1, memUpdate m2 (rateAsnKey (asns (k + 1))) ⟨.num 1, now + w * 1000, []⟩) :=
    kvIncrNoKV_of_assoc_none _ _ _ _ hm2asn
  show (bumpCountersNoKV M ip (fps (k + 1)) (asns (k + 1)) w pI pF pA now).1.rateHigh = _
  rw [bumpCountersNoKV]
  rw [hr1]
  dsimp only
  rw [hr2]
  dsimp only
  rw [hr3]
  dsimp only
  have hf : ¬(pF < 1) := by omega
  have ha : ¬(pA < 1) := by omega
  simp [hf, ha]

/-- C7, witness: limits `perFp = perAsn = 9`; with `perIp = 2`, three
calls trip `rateHigh`; with `perIp = 3`, exactly three calls do not. -/
theorem c7_rate_limit_boundary_witness :
    ((bumpIter (lit "9.9.9.9") (fun i => List.replicate i 97) (fun i => List.replicate i 98)
      10 2 9 9 0 3).1).rateHigh = true
  ∧ ((bumpIter (lit "9.9.9.9") (fun i => List.replicate i 97) (fun i => List.replicate i 98)
      10 3 9 9 0 3).1).rateHigh = false := by
  have hinj97 : Function.Injective (fun i => (List.replicate i 97 : Bytes)) := by
    intro a b hab
    simpa using congrArg List.length hab
  have hinj98 : Function.Injective (fun i => (List.replicate i 98 : Bytes)) := by
    intro a b hab
    simpa using congrArg List.length hab
  constructor
  · rw [c7_rate_limit_boundary (lit "9.9.9.9") _ _ hinj97 hinj98 10 2 9 9 0 3
      (by omega) (by omega) (by omega)]
    decide
  · rw [c7_rate_limit_boundary (lit "9.9.9.9") _ _ hinj97 hinj98 10 3 9 9 0 3
      (by omega) (by omega) (by omega)]
    decide
